import Mathlib

/-!
Verification of the agent-loop scripts in `2_DSA_LLM` (exercise_b.py,
exercise_2.py, 1_weather_agent.py, 3_github_agent.py).

Python strings are modelled as `List Char`.  The specific uses of the
`re` module in the source (`re.search` with the ReAct patterns,
`re.sub(r"```sql|```", ...)`) are modelled by direct scanning functions
that follow Python's leftmost-match backtracking semantics for exactly
those patterns; each definition documents the pattern it embeds.
-/

/-- Python strings are lists of characters. -/
abbrev Str := List Char

/-- Python's `\s` character class (`str.strip()` whitespace), restricted to
the ASCII whitespace characters, which are the only ones that occur in the
strings handled by these scripts. -/
def pyIsSpace (c : Char) : Bool :=
  c == ' ' || c == '\t' || c == '\n' || c == '\r' || c.toNat == 11 || c.toNat == 12

/-- Drop the run of `p`-characters at the end of a string. -/
def dropEndWhile (p : Char → Bool) (s : Str) : Str :=
  (s.reverse.dropWhile p).reverse

/-- Python `str.strip(chars)`: remove every leading and trailing character
satisfying `p`. -/
def pyStripP (p : Char → Bool) (s : Str) : Str :=
  dropEndWhile p (s.dropWhile p)

/-- Python `str.strip()` (whitespace on both ends). -/
def pyStrip (s : Str) : Str := pyStripP pyIsSpace s

/-- The double-quote character, `'"'` in Python. -/
def isDQuote (c : Char) : Bool := c.toNat == 34

/-- Python `str.strip('"')` as used in `run_agent` (`# Remove quotes if any`). -/
def pyStripQuote (s : Str) : Str := pyStripP isDQuote s

/-- Length of the leading whitespace run (what a greedy `\s*` consumes). -/
def wsPrefixLen (s : Str) : Nat := (s.takeWhile pyIsSpace).length

/-- Python `str.lower()` (ASCII-adequate for the queries in the scripts). -/
def pyLower (s : Str) : Str := s.map Char.toLower

/-- Index of the leftmost occurrence of `needle` in `hay`
(`None` when `needle` never occurs). -/
def findFirst (needle : Str) : Str → Option Nat
  | [] => if needle.isPrefixOf ([] : Str) then some 0 else none
  | c :: t =>
    if needle.isPrefixOf (c :: t) then some 0
    else (findFirst needle t).map (· + 1)

/-- Whether `needle` occurs somewhere inside `hay` (Python `needle in hay`). -/
def containsSub (needle hay : Str) : Bool := (findFirst needle hay).isSome

/-- Python `", ".join(...)`-style join. -/
def joinSep (sep : Str) : List Str → Str
  | [] => []
  | [x] => x
  | x :: xs => x ++ sep ++ joinSep sep xs

/-- Worker for `removeFences`; the `Nat` is fuel, instantiated with the string
length (each step consumes at least one character, so the fuel never runs
out before the string does). -/
def removeFencesAux : Nat → Str → Str
  | 0, s => s
  | _ + 1, [] => []
  | fuel + 1, c :: t =>
    if ("```sql".toList).isPrefixOf (c :: t) then removeFencesAux fuel (t.drop 5)
    else if ("```".toList).isPrefixOf (c :: t) then removeFencesAux fuel (t.drop 2)
    else c :: removeFencesAux fuel t

/-- `re.sub(r"```sql|```", "", query)` from `clean_and_run_sql`: delete every
(leftmost-first, non-overlapping) occurrence of ` ```sql ` or ` ``` `,
preferring the longer alternative exactly as the alternation order does. -/
def removeFences (s : Str) : Str := removeFencesAux s.length s

-- quick sanity checks on the string layer
example : pyStrip "  ab ".toList = "ab".toList := by decide
example : pyStripQuote "\"ab\"".toList = "ab".toList := by decide
example : findFirst "bc".toList "abcbc".toList = some 1 := by decide
example : removeFences "```sql x ```".toList = " x ".toList := by decide

/-! ## The Decision Step parser (`run_agent` in exercise_b.py)

`run_agent` parses the LLM's raw response with

    action_match = re.search(r"Action:\s*(.*?)\nAction Input:\s*(.*)", response_content, re.DOTALL)
    final_answer_match = re.search(r"Final Answer:\s*(.*)", response_content, re.DOTALL)

Both searches use `re.DOTALL` only (in particular they are case-SENSITIVE).
The embedding below follows Python's backtracking order for exactly these
patterns:

* `re.search` tries start positions left to right, so the match anchors at
  the leftmost occurrence of the literal `Action:`; the rest of the pattern
  can complete from there iff `\nAction Input:` occurs later in the string,
  and if it cannot complete there it cannot complete at any later
  occurrence either (the remaining text only shrinks), so anchoring at the
  first occurrence is faithful.
* after `Action:`, the greedy `\s*` prefers to consume the whole leading
  whitespace run and gives characters back one at a time; for each choice
  the lazy `(.*?)` stops at the first following occurrence of
  `\nAction Input:`.  `tryFrom` iterates the `\s*` choice downwards.
* after `Action Input:`, `\s*` greedily eats whitespace and the final
  greedy `(.*)` under DOTALL captures everything to the end of the string.
-/

/-- The literal `Action:` of the first search pattern. -/
def actionLit : Str := "Action:".toList

/-- The literal `\nAction Input:` that the lazy group must run up to. -/
def actionInputLit : Str := "\nAction Input:".toList

/-- The literal `Final Answer:` of the second search pattern. -/
def finalAnswerLit : Str := "Final Answer:".toList

/-- Backtracking of `\s*(.*?)\nAction Input:\s*(.*)` on the text after
`Action:`: `w` is the number of characters currently consumed by the greedy
`\s*` (started at the full whitespace run and counted down); the lazy group
then runs to the first occurrence of `\nAction Input:`.  Returns the two
capture groups. -/
def tryFrom (rest : Str) : Nat → Option (Str × Str)
  | 0 =>
    match findFirst actionInputLit rest with
    | some j =>
      some (rest.take j,
        ((rest.drop (j + actionInputLit.length)).dropWhile pyIsSpace))
    | none => none
  | w + 1 =>
    match findFirst actionInputLit (rest.drop (w + 1)) with
    | some j =>
      some ((rest.drop (w + 1)).take j,
        (((rest.drop (w + 1)).drop (j + actionInputLit.length)).dropWhile pyIsSpace))
    | none => tryFrom rest w

/-- `re.search(r"Action:\s*(.*?)\nAction Input:\s*(.*)", s, re.DOTALL)`:
the two capture groups of the leftmost match, if any. -/
def searchActionPair (s : Str) : Option (Str × Str) :=
  match findFirst actionLit s with
  | none => none
  | some i =>
    let rest := s.drop (i + actionLit.length)
    tryFrom rest (wsPrefixLen rest)

/-- `re.search(r"Final Answer:\s*(.*)", s, re.DOTALL)`: the capture group of
the leftmost match, if any. -/
def searchFinalAnswer (s : Str) : Option Str :=
  match findFirst finalAnswerLit s with
  | none => none
  | some i => some ((s.drop (i + finalAnswerLit.length)).dropWhile pyIsSpace)

/-- The agent outcome produced by `run_agent`: either
`AgentAction(tool, tool_input, log)` or
`AgentFinish(return_values={"output": output}, log)`. -/
inductive Outcome
  | action (tool : Str) (toolInput : Str) (log : Str)
  | finish (output : Str) (log : Str)
deriving DecidableEq

/-- The parsing tail of `run_agent` (exercise_b.py lines 277-294): turn the
raw LLM response text into an `Outcome`.

    if action_match:
        tool_name = action_match.group(1).strip()
        tool_input = action_match.group(2).strip().strip('"')
        action = AgentAction(tool=tool_name, tool_input=tool_input, log=response_content)
    elif final_answer_match:
        finish = AgentFinish(return_values={"output": final_answer_match.group(1).strip()}, log=response_content)
    else:
        finish = AgentFinish(return_values={"output": response_content}, log=response_content)
-/
def run_agent_parse (s : Str) : Outcome :=
  match searchActionPair s with
  | some (g1, g2) => .action (pyStrip g1) (pyStripQuote (pyStrip g2)) s
  | none =>
    match searchFinalAnswer s with
    | some g1 => .finish (pyStrip g1) s
    | none => .finish s s

-- sanity checks against hand-traced Python behaviour
example :
    run_agent_parse "Thought: x\nAction: ReadFile\nAction Input: \"a.txt\"".toList
      = Outcome.action "ReadFile".toList "a.txt".toList
          "Thought: x\nAction: ReadFile\nAction Input: \"a.txt\"".toList := by
  decide

example :
    run_agent_parse "Final Answer:  42 ".toList
      = Outcome.finish "42".toList "Final Answer:  42 ".toList := by
  decide

example :
    run_agent_parse "hello".toList = Outcome.finish "hello".toList "hello".toList := by
  decide

-- lowercase markers do not match (the search is case-sensitive)
example :
    run_agent_parse "action: T\naction input: x".toList
      = Outcome.finish "action: T\naction input: x".toList
          "action: T\naction input: x".toList := by
  decide

-- single quotes are not stripped (only str.strip('"') is applied)
example :
    run_agent_parse "Action: T\nAction Input: 'x'".toList
      = Outcome.action "T".toList "'x'".toList
          "Action: T\nAction Input: 'x'".toList := by
  decide

/-! ## The loop driver (LangGraph workflow in exercise_b.py)

The compiled graph alternates between the node `"agent"` (`run_agent`) and
the node `"tools"` (`execute_tools`); `route_agent_outcome` sends an
`AgentFinish` outcome to `END` and everything else to `"tools"`, and the
unconditional edge `workflow.add_edge("tools", "agent")` sends every tool
execution back to the agent node.

The LLM is modelled by a script: the list of raw response texts it will
return on successive invocations (an empty script means the next LLM call
is an external transport failure, on which the run blocks/raises — outside
the loop's own behaviour).  `tool_executor.invoke` is modelled by a
function into `Except`: `.error` is a raised Python exception, which
`execute_tools` catches and converts to its observation string. -/

/-- An `AgentAction`: tool name, tool input and the rationale log. -/
structure Act where
  tool : Str
  toolInput : Str
  log : Str
deriving DecidableEq

/-- The three control positions of a run: at the `"agent"` node
(`DECIDING`), at the `"tools"` node (`EXECUTING`), or at `END` (`DONE`). -/
inductive Node
  | agent
  | tools
  | done
deriving DecidableEq

/-- The graph state of `AgentState`, plus the scripted LLM responses and the
current node.  `intermediate_steps` accumulates `(AgentAction, observation)`
pairs with `operator.add` (append). -/
structure GState where
  responses : List Str
  intermediate_steps : List (Act × Str)
  agent_outcome : Option Outcome
  node : Node
deriving DecidableEq

/-- `route_agent_outcome`: `END` iff the outcome is an `AgentFinish`,
otherwise the `"tools"` node. -/
def route_agent_outcome (o : Option Outcome) : Node :=
  match o with
  | some (.finish _ _) => .done
  | _ => .tools

/-- The observation computed by `execute_tools`: the result of
`tool_executor.invoke`, or — when that raised — the
`Tool Execution Error ...` string built in the `except` block. -/
def execute_tools_obs (toolExec : Act → Except Str Str) (a : Act) : Str :=
  match toolExec a with
  | .ok obs => obs
  | .error e =>
    "Tool Execution Error for tool '".toList ++ a.tool
      ++ "' with input '".toList ++ a.toolInput ++ "': ".toList ++ e

/-- One node execution of the compiled graph.  `none` means no step
happens: the run is finished (`END` is terminal), the next LLM call fails
at transport level (script exhausted), or `execute_tools` reaches a state
the graph's routing can never produce (no held `AgentAction`), where the
Python attribute access would raise. -/
def stepG (toolExec : Act → Except Str Str) (g : GState) : Option GState :=
  match g.node with
  | .agent =>
    match g.responses with
    | [] => none
    | r :: rs =>
      let o := run_agent_parse r
      some { g with
        responses := rs
        agent_outcome := some o
        node := route_agent_outcome (some o) }
  | .tools =>
    match g.agent_outcome with
    | some (.action t i l) =>
      let a : Act := ⟨t, i, l⟩
      some { g with
        intermediate_steps := g.intermediate_steps ++ [(a, execute_tools_obs toolExec a)]
        node := .agent }
    | _ => none
  | .done => none

/-- Run `n` node executions, also returning the list of outcomes the agent
node produced along the way (newest last).  Stops early when no step is
possible. -/
def driveN (toolExec : Act → Except Str Str) : Nat → GState → GState × List Outcome
  | 0, g => (g, [])
  | n + 1, g =>
    match stepG toolExec g with
    | none => (g, [])
    | some g' =>
      let p := driveN toolExec n g'
      (p.1,
        (match g.node, g'.agent_outcome with
         | .agent, some o => [o]
         | _, _ => []) ++ p.2)

/-- The initial state of `app.invoke`: empty transcript, no outcome, entry
point at the agent node. -/
def initState (rs : List Str) : GState :=
  ⟨rs, [], none, .agent⟩

/-- `1` at the `"tools"` node, where an `Action` outcome has been produced
but its transcript entry is not yet appended; `0` elsewhere. -/
def pendingEntry (g : GState) : Nat :=
  match g.node with
  | .tools => 1
  | _ => 0

/-- Whether an outcome is an `AgentAction` (a tool call). -/
def isActionOutcome : Outcome → Bool
  | .action _ _ _ => true
  | .finish _ _ => false

-- sanity: a scripted two-iteration run (one tool call, then a final answer)
example :
    (driveN (fun _ => .ok "obs".toList) 3
      (initState ["Action: T\nAction Input: x".toList, "Final Answer: done".toList])).1
    = ⟨[], [(⟨"T".toList, "x".toList, "Action: T\nAction Input: x".toList⟩, "obs".toList)],
        some (.finish "done".toList "Final Answer: done".toList), .done⟩ := by
  decide

/-! ## The tool layer

The file system is a store of directories and whole-file texts; writing
shadows any earlier entry for the same path (Python `open(path, "w")`
overwrites).  The database handle `db` (langchain `SQLDatabase`) is an
external collaborator and is modelled by a function from the query text to
either a raised exception (`.error`) or the Python value `db.run` returns.
-/

/-- The file-system state: created directories and written files. -/
structure FS where
  dirs : List Str
  files : List (Str × Str)
deriving DecidableEq

/-- `os.makedirs(d, exist_ok=True)`. -/
def os_makedirs (fs : FS) (d : Str) : FS :=
  if d ∈ fs.dirs then fs else { fs with dirs := d :: fs.dirs }

/-- `open(path, "w") ... f.write(content)`: the new entry shadows older
entries for the same path. -/
def fsWrite (fs : FS) (path content : Str) : FS :=
  { fs with files := (path, content) :: fs.files }

/-- The content at `path`, newest write first. -/
def fsRead (fs : FS) (path : Str) : Option Str :=
  (fs.files.find? (fun pc => pc.1 == path)).map (fun pc => pc.2)

/-- A row of a `db.run` list result, keeping just the structure the code
inspects: a one-element tuple carries its single cell's `str()` rendering
and the tuple's own `str()` rendering; any other row just its rendering. -/
inductive PyRow
  | tuple1 (cell : Str) (rendered : Str)
  | other (rendered : Str)
deriving DecidableEq

/-- The `str()` rendering of a row. -/
def PyRow.render : PyRow → Str
  | .tuple1 _ r => r
  | .other r => r

/-- The Python value returned by `db.run`: a string (what langchain's
`SQLDatabase.run` actually returns), a list of rows, or `None`. -/
inductive PyDBResult
  | pystr (s : Str)
  | pylist (rows : List PyRow)
  | pynone
deriving DecidableEq

/-- Python `str()` of a `db.run` result (`f"...{result}..."`). -/
def pyStrOfDB : PyDBResult → Str
  | .pystr s => s
  | .pylist rows => "[".toList ++ joinSep ", ".toList (rows.map PyRow.render) ++ "]".toList
  | .pynone => "None".toList

/-- `clean_and_run_sql` from exercise_b.py: strip code fences and
whitespace, run the query, post-process SELECT results, and convert any
exception from `db.run` into the `SQL execution error ...` string. -/
def clean_and_run_sql (dbRun : Str → Except Str PyDBResult) (query0 : Str) : Str :=
  let query := pyStrip (removeFences query0)
  if ("select".toList).isPrefixOf (pyLower query) then
    match dbRun query with
    | .error e =>
      "SQL execution error: ".toList ++ e ++ " for query: ".toList ++ query
    | .ok result =>
      match result with
      | .pylist rows =>
        match rows with
        | [] => "No results found for the query.".toList
        | [PyRow.tuple1 cell _] => cell
        | _ => joinSep ", ".toList (rows.map PyRow.render)
      | _ => pyStrOfDB result
  else
    match dbRun query with
    | .error e =>
      "SQL execution error: ".toList ++ e ++ " for query: ".toList ++ query
    | .ok result =>
      "Query executed successfully. Result: ".toList ++
        (match result with
         | .pynone => "N/A".toList
         | r => pyStrOfDB r)

/-- `re.search(r"SQL:\s*(SELECT.*)", input_string, re.IGNORECASE | re.DOTALL)`,
returning the capture group (which keeps the original casing of the matched
`SELECT...` text).  Scans start positions left to right: at each
case-insensitive occurrence of `SQL:`, the greedy `\s*` must end exactly at
a case-insensitive `SELECT` (whitespace can never double as its `S`), else
the search moves on. -/
def searchSQLSelect : Str → Option Str
  | [] => none
  | c :: t =>
    if (pyLower "SQL:".toList).isPrefixOf (pyLower (c :: t)) then
      let rest := ((c :: t).drop 4).dropWhile pyIsSpace
      if (pyLower "SELECT".toList).isPrefixOf (pyLower rest) then some rest
      else searchSQLSelect t
    else searchSQLSelect t

/-- `WriteQueryResultToFile` from exercise_b.py: extract the query after the
`SQL:` marker, run it, create the database's directory if absent, overwrite
`db_result.txt` there, and return the confirmation observation.  `dbDir`
stands for `os.path.dirname(os.path.abspath(sqlite_db_file))`. -/
def WriteQueryResultToFile (dbRun : Str → Except Str PyDBResult) (dbDir : Str)
    (fs : FS) (input_string : Str) : FS × Str :=
  match searchSQLSelect input_string with
  | none =>
    (fs, "Error: Input to WriteQueryResultToFile must start with 'SQL:' followed by the query.".toList)
  | some g1 =>
    let sql_query := pyStrip g1
    let result := clean_and_run_sql dbRun sql_query
    let fs1 := os_makedirs fs dbDir
    let path := dbDir ++ "/db_result.txt".toList
    let fs2 := fsWrite fs1 path ("The number of users is: ".toList ++ result)
    (fs2, "Query result successfully written to ".toList ++ path
            ++ ". Result: ".toList ++ result)

/-- The registered tool names of exercise_b.py
(`tools = [sql_tool, WriteQueryResultToFile, ReadFile]`). -/
def toolNames : List Str :=
  ["SQL_Query_Executor".toList, "WriteQueryResultToFile".toList, "ReadFile".toList]

/-- Modelled from the spec: the dispatch of langgraph's `ToolExecutor`
(third-party code, not in the repository) over the registry built from
`tools`; per §4.3, an unregistered tool name produces an observation string
describing the unknown-tool condition instead of raising (langgraph renders
its `invalid_tool_msg_template` and returns it as the result). -/
def tool_executor (sqlRun writeQ readF : Str → Except Str Str) (a : Act) :
    Except Str Str :=
  if a.tool = "SQL_Query_Executor".toList then sqlRun a.toolInput
  else if a.tool = "WriteQueryResultToFile".toList then writeQ a.toolInput
  else if a.tool = "ReadFile".toList then readF a.toolInput
  else .ok (a.tool ++ " is not a valid tool, try one of [SQL_Query_Executor, WriteQueryResultToFile, ReadFile].".toList)

-- sanity: the exercise_b write tool on the spec's example input
example :
    (WriteQueryResultToFile
        (fun q => if q = "SELECT COUNT(*) FROM users;".toList
                  then .ok (.pystr "[(4,)]".toList) else .error [])
        "/data".toList ⟨[], []⟩
        "SQL: SELECT COUNT(*) FROM users;".toList).2
    = "Query result successfully written to /data/db_result.txt. Result: [(4,)]".toList := by
  decide

/-! ## exercise_2.py's write tool

`WriteQueryResultToFile` in exercise_2.py writes the file and then calls
`sys.exit()` inside the `with` block.  `sys.exit` raises `SystemExit`,
which derives from `BaseException`, not `Exception`, so the surrounding
`except Exception` does not catch it: the process unwinds (the `with`
block's `__exit__` closes and flushes the file on the way out) and
terminates.  Its `clean_and_run_sql` has no try/except: a `db.run`
exception propagates into the tool's `except Exception` handler. -/

/-- What an invocation of exercise_2's write tool does to the process:
terminate it (via `SystemExit`), or return an observation string. -/
inductive ToolRun2
  | exited (fs : FS)
  | returned (fs : FS) (obs : Str)
deriving DecidableEq

/-- `clean_and_run_sql` from exercise_2.py: strip fences and whitespace and
run the query; no exception handling of its own. -/
def clean_and_run_sql_ex2 (dbRun : Str → Except Str Str) (query : Str) :
    Except Str Str :=
  dbRun (pyStrip (removeFences query))

/-- `WriteQueryResultToFile` from exercise_2.py. -/
def WriteQueryResultToFile_ex2 (dbRun : Str → Except Str Str) (fs : FS)
    (query : Str) : ToolRun2 :=
  match clean_and_run_sql_ex2 dbRun query with
  | .error e => .returned fs ("Failed to write query result: ".toList ++ e)
  | .ok result =>
    let fs1 := os_makedirs fs "filepath".toList
    let path := "filepath".toList ++ "/query_result.txt".toList
    let fs2 := fsWrite fs1 path ("This is the result of the query: ".toList ++ result)
    .exited fs2

/-! ## The HTTP-backed tools (1_weather_agent.py and 3_github_agent.py)

`requests.get` is modelled by a function from the URL to either a raised
exception (`.error`, a network failure) or an `HttpResponse`.  The Python
rendering of `response.json()` is modelled by the response body text, and
the field extraction `data['current_condition'][0]...` /
`response.json().get("items", [])` by parsing functions passed in as
parameters (`.error` standing for the exceptions malformed JSON raises). -/

/-- An HTTP response: status code and body text. -/
structure HttpResponse where
  status : Nat
  body : Str
deriving DecidableEq

/-- The URL `f"https://wttr.in/{city}?format=j1"`. -/
def weather_url (city : Str) : Str :=
  "https://wttr.in/".toList ++ city ++ "?format=j1".toList

/-- `get_weather` from 1_weather_agent.py.  `parseWeather` extracts
`(temp_C, weatherDesc)` from the JSON body or raises.  The whole body is
wrapped in `try/except Exception`, so every raise inside — including a
network failure from `requests.get` — becomes the `Weather error: ...`
observation; but the non-200 branch returns a fixed message naming only the
city. -/
def get_weather (http : Str → Except Str HttpResponse)
    (parseWeather : Str → Except Str (Str × Str)) (city : Str) : Str :=
  match http (weather_url city) with
  | .error e => "Weather error: ".toList ++ e
  | .ok resp =>
    if resp.status = 200 then
      match parseWeather resp.body with
      | .ok (temp, desc) =>
        "The weather in ".toList ++ city ++ " is a ".toList ++ pyLower desc
          ++ " with a temperature of ".toList ++ temp ++ "°C.".toList
      | .error e => "Weather error: ".toList ++ e
    else
      "Could not get weather for ".toList ++ city

/-- The URL `f"{GITHUB_API_BASE}/search/repositories?q={query}"`. -/
def search_url (q : Str) : Str :=
  "https://api.github.com/search/repositories?q=".toList ++ q

/-- `search_repositories` from 3_github_agent.py.  `parseItems` extracts
the `(full_name, html_url)` pairs of `response.json().get("items", [])`.
There is no try/except: a raised exception (network failure, malformed
JSON) propagates out of the tool, hence the `Except` return type. -/
def search_repositories (http : Str → Except Str HttpResponse)
    (parseItems : Str → Except Str (List (Str × Str))) (query : Str) :
    Except Str Str :=
  match http (search_url query) with
  | .error e => .error e
  | .ok resp =>
    if resp.status = 200 then
      match parseItems resp.body with
      | .error e => .error e
      | .ok repos =>
        if repos.isEmpty then
          .ok ("No repositories found for query: ".toList ++ query)
        else
          .ok (joinSep "\n".toList
            ((repos.take 5).map
              (fun p => "Repo: ".toList ++ p.1 ++ ", URL: ".toList ++ p.2)))
    else
      .ok ("Error: ".toList ++ resp.body)

-- sanity checks
example :
    get_weather (fun _ => .ok ⟨500, "oops".toList⟩) (fun _ => .error []) "Lagos".toList
      = "Could not get weather for Lagos".toList := by decide
example :
    search_repositories (fun _ => .error "conn".toList) (fun _ => .ok []) "x".toList
      = .error "conn".toList := rfl

/-! ## String lemmas -/

/-- A list is a `isPrefixOf`-prefix of itself followed by anything. -/
theorem isPrefixOf_append_self (n x : Str) : n.isPrefixOf (n ++ x) = true := by
  induction n with
  | nil => simp [List.isPrefixOf]
  | cons a t ih => simp [List.isPrefixOf, ih]

/-- Matching heads of an `isPrefixOf` match. -/
theorem head_eq_of_isPrefixOf (a c : Char) (as t : Str)
    (h : (a :: as).isPrefixOf (c :: t) = true) : a = c := by
  simp only [List.isPrefixOf, Bool.and_eq_true, beq_iff_eq] at h
  exact h.1

/-- A prefix longer than the left part of an append reaches into the right
part: the right part starts with one of the prefix's characters. -/
theorem straddle_of_isPrefixOf (n : Str) :
    ∀ (x b : Str), n.isPrefixOf (x ++ b) = true → x.length < n.length →
      ∃ c t, b = c :: t ∧ c ∈ n := by
  induction n with
  | nil => intro x b _ hl; simp at hl
  | cons a as ih =>
    intro x b h hl
    cases x with
    | nil =>
      cases b with
      | nil => simp [List.isPrefixOf] at h
      | cons c t =>
        simp only [List.nil_append] at h
        exact ⟨c, t, rfl, (head_eq_of_isPrefixOf a c as t h) ▸ List.mem_cons_self a as⟩
    | cons y ys =>
      simp only [List.cons_append, List.isPrefixOf, Bool.and_eq_true] at h
      rcases ih ys b h.2 (by simpa using Nat.lt_of_succ_lt_succ (by simpa using hl)) with
        ⟨c, t, hb, hc⟩
      exact ⟨c, t, hb, List.mem_cons_of_mem a hc⟩

/-- A prefix no longer than the left part of an append is a prefix of the
left part alone. -/
theorem isPrefixOf_left_of_isPrefixOf_append (n : Str) :
    ∀ (x b : Str), n.isPrefixOf (x ++ b) = true → n.length ≤ x.length →
      n.isPrefixOf x = true := by
  induction n with
  | nil => intro x b _ _; simp [List.isPrefixOf]
  | cons a as ih =>
    intro x b h hl
    cases x with
    | nil => simp at hl
    | cons y ys =>
      simp only [List.cons_append, List.isPrefixOf, Bool.and_eq_true] at h ⊢
      exact ⟨h.1, ih ys b h.2 (by simpa using Nat.le_of_succ_le_succ (by simpa using hl))⟩

/-- When `findFirst` reports no occurrence, `needle` is a prefix of no
suffix. -/
theorem not_isPrefixOf_drop_of_findFirst_none (n : Str) :
    ∀ (s : Str), findFirst n s = none → ∀ i, n.isPrefixOf (s.drop i) = false := by
  intro s
  induction s with
  | nil =>
    intro h i
    simp only [findFirst] at h
    simp only [List.drop_nil]
    cases hp : n.isPrefixOf ([] : Str) with
    | false => rfl
    | true => rw [hp] at h; simp at h
  | cons c t ih =>
    intro h i
    simp only [findFirst] at h
    cases hp : n.isPrefixOf (c :: t) with
    | true => rw [hp] at h; simp at h
    | false =>
      simp only [hp, Bool.false_eq_true, if_false] at h
      have ht : findFirst n t = none := by
        cases hft : findFirst n t with
        | none => rfl
        | some j => rw [hft] at h; simp at h
      cases i with
      | zero => simpa using hp
      | succ i => simpa using ih ht i

/-- When a prefix holds, `findFirst` reports position `0`. -/
theorem findFirst_of_isPrefixOf (n s : Str) (h : n.isPrefixOf s = true) :
    findFirst n s = some 0 := by
  cases s with
  | nil => simp [findFirst, h]
  | cons c t => simp [findFirst, h]

/-- `findFirst` over an append whose left part hosts no occurrence start:
the search lands in the right part, shifted. -/
theorem findFirst_append_shift (n : Str) :
    ∀ (a b : Str), (∀ i, i < a.length → n.isPrefixOf (a.drop i ++ b) = false) →
      findFirst n (a ++ b) = (findFirst n b).map (· + a.length) := by
  intro a
  induction a with
  | nil =>
    intro b _
    cases hb : findFirst n b <;> simp [hb]
  | cons c as ih =>
    intro b h
    have h0 : n.isPrefixOf (c :: (as ++ b)) = false := by
      have := h 0 (by simp)
      simpa using this
    have hrest : ∀ i, i < as.length → n.isPrefixOf (as.drop i ++ b) = false := by
      intro i hi
      have := h (i + 1) (by simp; omega)
      simpa using this
    calc findFirst n (c :: (as ++ b))
        = (findFirst n (as ++ b)).map (· + 1) := by
          simp [findFirst, h0]
      _ = ((findFirst n b).map (· + as.length)).map (· + 1) := by rw [ih b hrest]
      _ = (findFirst n b).map (· + (c :: as).length) := by
          cases hb : findFirst n b <;> simp [hb]; omega

/-- Dropping a satisfied run twice is dropping it once. -/
theorem dropWhile_dropWhile (p : Char → Bool) (s : Str) :
    (s.dropWhile p).dropWhile p = s.dropWhile p := by
  induction s with
  | nil => rfl
  | cons c t ih =>
    rw [List.dropWhile_cons]
    by_cases h : p c
    · simp only [h, if_true, ih]
    · simp [List.dropWhile_cons, h]

/-- `strip` ignores an already-removed leading run. -/
theorem pyStrip_dropWhile (s : Str) :
    pyStrip (s.dropWhile pyIsSpace) = pyStrip s := by
  unfold pyStrip pyStripP
  rw [dropWhile_dropWhile]

/-- `strip` never lengthens a string. -/
theorem pyStrip_length_le (s : Str) : (pyStrip s).length ≤ s.length := by
  unfold pyStrip pyStripP dropEndWhile
  have h1 : ∀ (l : Str), (l.dropWhile pyIsSpace).length ≤ l.length := by
    intro l
    induction l with
    | nil => simp [List.dropWhile]
    | cons a t ih =>
      rw [List.dropWhile_cons]
      by_cases h : pyIsSpace a
      · simp only [h, if_true, List.length_cons]
        omega
      · simp [h]
  calc ((s.dropWhile pyIsSpace).reverse.dropWhile pyIsSpace).reverse.length
      ≤ (s.dropWhile pyIsSpace).reverse.length := by
        rw [List.length_reverse]; exact h1 _
    _ ≤ s.length := by rw [List.length_reverse]; exact h1 s

/-- A nonempty string untouched by `strip` does not start with whitespace. -/
theorem head_not_space_of_pyStrip_self (c : Char) (t : Str)
    (h : pyStrip (c :: t) = c :: t) : pyIsSpace c = false := by
  by_contra hc
  have hc' : pyIsSpace c = true := by
    cases hcc : pyIsSpace c with
    | true => rfl
    | false => exact absurd hcc hc
  have h1 : pyStrip (c :: t) = pyStrip t := by
    unfold pyStrip pyStripP
    rw [List.dropWhile_cons, if_pos hc']
  have h2 : (pyStrip (c :: t)).length ≤ t.length := h1 ▸ pyStrip_length_le t
  rw [h] at h2
  simp at h2

/-- `containsSub = false` means `findFirst` fails. -/
theorem findFirst_eq_none_of_not_containsSub (n s : Str)
    (h : containsSub n s = false) : findFirst n s = none := by
  unfold containsSub at h
  cases hf : findFirst n s with
  | none => rfl
  | some j => rw [hf] at h; simp at h

/-- Anchoring lemma: when `Action:` does not occur in `thought`, the first
occurrence of `Action:` in `thought ++ "\n" ++ "Action:" ++ rest` is right
after the newline. -/
theorem findFirst_anchor (thought rest : Str)
    (hno : containsSub actionLit thought = false) :
    findFirst actionLit ((thought ++ ['\n']) ++ (actionLit ++ rest))
      = some (thought.length + 1) := by
  have hnone := findFirst_eq_none_of_not_containsSub actionLit thought hno
  have hmain :
      findFirst actionLit ((thought ++ ['\n']) ++ (actionLit ++ rest))
        = (findFirst actionLit (actionLit ++ rest)).map
            (· + (thought ++ ['\n']).length) := by
    apply findFirst_append_shift
    intro i hi
    have hi' : i ≤ thought.length := by
      rw [List.length_append] at hi
      simpa using Nat.lt_succ_iff.mp (by simpa using hi)
    have hdrop : (thought ++ ['\n']).drop i = thought.drop i ++ ['\n'] :=
      List.drop_append_of_le_length hi'
    rw [hdrop]
    cases hp : actionLit.isPrefixOf
        ((thought.drop i ++ ['\n']) ++ (actionLit ++ rest)) with
    | false => rfl
    | true =>
      exfalso
      rw [List.append_assoc] at hp
      by_cases hlen : actionLit.length ≤ (thought.drop i).length
      · have htrue := isPrefixOf_left_of_isPrefixOf_append actionLit (thought.drop i)
          (['\n'] ++ (actionLit ++ rest)) hp hlen
        have hfalse := not_isPrefixOf_drop_of_findFirst_none actionLit thought hnone i
        simp [htrue] at hfalse
      · rcases straddle_of_isPrefixOf actionLit (thought.drop i)
          (['\n'] ++ (actionLit ++ rest)) hp (Nat.lt_of_not_le hlen) with
          ⟨c, tl, hb, hc⟩
        have hb' : ('\n' :: (actionLit ++ rest) : Str) = c :: tl := by
          simpa using hb
        have hcn : c = '\n' := by
          injection hb' with h1 h2
          exact h1.symm
        rw [hcn] at hc
        exact absurd hc (by decide)
  rw [hmain, findFirst_of_isPrefixOf actionLit (actionLit ++ rest)
    (isPrefixOf_append_self actionLit rest)]
  simp

/-- The first occurrence of `\nAction Input:` after a newline-free tool name
is right after the name. -/
theorem findFirst_inner (name x : Str) (hnl : '\n' ∉ name) :
    findFirst actionInputLit (name ++ (actionInputLit ++ x)) = some name.length := by
  have hmain :
      findFirst actionInputLit (name ++ (actionInputLit ++ x))
        = (findFirst actionInputLit (actionInputLit ++ x)).map (· + name.length) := by
    apply findFirst_append_shift
    intro i hi
    have hdrop : name.drop i = name[i] :: name.drop (i + 1) :=
      List.drop_eq_getElem_cons hi
    rw [hdrop]
    cases hp : actionInputLit.isPrefixOf
        ((name[i] :: name.drop (i + 1)) ++ (actionInputLit ++ x)) with
    | false => rfl
    | true =>
      exfalso
      have hlit : actionInputLit
          = '\n' :: "Action Input:".toList := by decide
      rw [hlit, List.cons_append] at hp
      have := head_eq_of_isPrefixOf '\n' name[i] "Action Input:".toList
        (name.drop (i + 1) ++ (actionInputLit ++ x)) hp
      exact hnl (this ▸ List.getElem_mem hi)
  rw [hmain, findFirst_of_isPrefixOf actionInputLit (actionInputLit ++ x)
    (isPrefixOf_append_self actionInputLit x)]
  simp


/-- Unfolding of `searchActionPair` when the anchor position is known. -/
theorem searchActionPair_some_find (s : Str) (i : Nat)
    (h : findFirst actionLit s = some i) :
    searchActionPair s
      = tryFrom (s.drop (i + actionLit.length))
          (wsPrefixLen (s.drop (i + actionLit.length))) := by
  unfold searchActionPair
  rw [h]

/-- The action-pair search on a well-shaped ReAct response extracts the tool
name and the raw input (with the leading whitespace the greedy `\s*` eats
already gone). -/
theorem searchActionPair_structured (thought name inp : Str)
    (hno : containsSub actionLit thought = false)
    (hnl : '\n' ∉ name) (hne : name ≠ []) (hstrip : pyStrip name = name) :
    searchActionPair
        (thought ++ "\nAction: ".toList ++ name ++ "\nAction Input: ".toList ++ inp)
      = some (name, inp.dropWhile pyIsSpace) := by
  have hA : "\nAction: ".toList = ('\n' :: (actionLit ++ [' '])) := by decide
  have hB : "\nAction Input: ".toList = actionInputLit ++ [' '] := by decide
  have hs :
      thought ++ "\nAction: ".toList ++ name ++ "\nAction Input: ".toList ++ inp
        = (thought ++ ['\n'])
            ++ (actionLit ++ (' ' :: (name ++ (actionInputLit ++ (' ' :: inp))))) := by
    rw [hA, hB]
    simp [List.append_assoc]
  rw [hs]
  have hfind := findFirst_anchor thought
    (' ' :: (name ++ (actionInputLit ++ (' ' :: inp)))) hno
  rw [searchActionPair_some_find _ _ hfind]
  have hdropPre :
      ((thought ++ ['\n'])
          ++ (actionLit ++ (' ' :: (name ++ (actionInputLit ++ (' ' :: inp)))))).drop
        (thought.length + 1 + actionLit.length)
        = ' ' :: (name ++ (actionInputLit ++ (' ' :: inp))) := by
    have hP : ((thought ++ ['\n']) ++ actionLit).length
        = thought.length + 1 + actionLit.length := by
      simp only [List.length_append, List.length_singleton]
    calc ((thought ++ ['\n'])
            ++ (actionLit ++ (' ' :: (name ++ (actionInputLit ++ (' ' :: inp)))))).drop
          (thought.length + 1 + actionLit.length)
        = (((thought ++ ['\n']) ++ actionLit)
            ++ (' ' :: (name ++ (actionInputLit ++ (' ' :: inp))))).drop
          (((thought ++ ['\n']) ++ actionLit).length) := by
          rw [hP]
          simp [List.append_assoc]
      _ = ' ' :: (name ++ (actionInputLit ++ (' ' :: inp))) := List.drop_left _ _
  rw [hdropPre]
  rcases List.exists_cons_of_ne_nil hne with ⟨c, nt, hname⟩
  have hcns : pyIsSpace c = false :=
    head_not_space_of_pyStrip_self c nt (hname ▸ hstrip)
  have hws : wsPrefixLen (' ' :: (name ++ (actionInputLit ++ (' ' :: inp)))) = 1 := by
    unfold wsPrefixLen
    rw [hname, List.cons_append, List.takeWhile_cons, List.takeWhile_cons]
    have hsp : pyIsSpace ' ' = true := by decide
    simp [hsp, hcns]
  rw [hws]
  have htail : tryFrom (' ' :: (name ++ (actionInputLit ++ (' ' :: inp)))) (0 + 1)
      = some ((name ++ (actionInputLit ++ (' ' :: inp))).take name.length,
          (((name ++ (actionInputLit ++ (' ' :: inp))).drop
              (name.length + actionInputLit.length)).dropWhile pyIsSpace)) := by
    unfold tryFrom
    rw [show ((' ' :: (name ++ (actionInputLit ++ (' ' :: inp)))).drop (0 + 1))
          = name ++ (actionInputLit ++ (' ' :: inp)) from rfl,
        findFirst_inner name (' ' :: inp) hnl]
  rw [show (1 : Nat) = 0 + 1 from rfl, htail]
  have htake : (name ++ (actionInputLit ++ (' ' :: inp))).take name.length = name :=
    List.take_left _ _
  have hdrop2 : (name ++ (actionInputLit ++ (' ' :: inp))).drop
      (name.length + actionInputLit.length) = ' ' :: inp := by
    calc (name ++ (actionInputLit ++ (' ' :: inp))).drop
          (name.length + actionInputLit.length)
        = ((name ++ actionInputLit) ++ (' ' :: inp)).drop
          ((name ++ actionInputLit).length) := by
          rw [List.length_append, List.append_assoc]
      _ = ' ' :: inp := List.drop_left _ _
  rw [htake, hdrop2]
  have hsp : pyIsSpace ' ' = true := by decide
  rw [List.dropWhile_cons, if_pos hsp]

/-! ## Claim theorems -/

/-- C1 (counterexample): the claim promises case-insensitive matching and
quote stripping independent of the quoting style.  The code's pattern is
case-sensitive — a lowercase `action:`/`action input:` pair falls through to
the fallback `Finish` — and only double quotes are stripped: a single-quoted
input keeps its quotes. -/
theorem run_agent_parse_c1_counterexample :
    run_agent_parse "action: ReadFile\naction input: x".toList
      = Outcome.finish "action: ReadFile\naction input: x".toList
          "action: ReadFile\naction input: x".toList ∧
    run_agent_parse "Action: ReadFile\nAction Input: 'x'".toList
      = Outcome.action "ReadFile".toList "'x'".toList
          "Action: ReadFile\nAction Input: 'x'".toList := by
  constructor
  · decide
  · decide

/-- C1 (amended): for every LLM response of the shape
`<thought>\nAction: <name>\nAction Input: <input>` — matched
case-sensitively, where `Action:` does not already occur in the thought text
and the tool name is a nonempty newline-free token without surrounding
whitespace — the parser returns an `Action` whose tool field is the name,
whose tool input is the input with surrounding whitespace and then
surrounding double-quote characters stripped, and whose rationale log is
the full raw response text. -/
theorem run_agent_parse_action_pair (thought name inp : Str)
    (hno : containsSub actionLit thought = false)
    (hnl : '\n' ∉ name) (hne : name ≠ []) (hstrip : pyStrip name = name) :
    run_agent_parse
        (thought ++ "\nAction: ".toList ++ name ++ "\nAction Input: ".toList ++ inp)
      = Outcome.action name (pyStripQuote (pyStrip inp))
          (thought ++ "\nAction: ".toList ++ name ++ "\nAction Input: ".toList ++ inp) := by
  unfold run_agent_parse
  rw [searchActionPair_structured thought name inp hno hnl hne hstrip]
  show Outcome.action (pyStrip name) (pyStripQuote (pyStrip (inp.dropWhile pyIsSpace))) _ = _
  rw [show pyStrip (inp.dropWhile pyIsSpace) = pyStrip inp from pyStrip_dropWhile inp]
  rw [hstrip]

/-- C1 (witness): the amended parser theorem applied to a concrete
response with a double-quoted input. -/
theorem run_agent_parse_action_pair_witness :
    containsSub actionLit "Thought: I should check the file".toList = false ∧
    ('\n' ∉ "ReadFile".toList) ∧
    "ReadFile".toList ≠ [] ∧
    pyStrip "ReadFile".toList = "ReadFile".toList ∧
    run_agent_parse
        ("Thought: I should check the file".toList ++ "\nAction: ".toList
          ++ "ReadFile".toList ++ "\nAction Input: ".toList ++ " \"db_result.txt\" ".toList)
      = Outcome.action "ReadFile".toList
          (pyStripQuote (pyStrip " \"db_result.txt\" ".toList))
          ("Thought: I should check the file".toList ++ "\nAction: ".toList
            ++ "ReadFile".toList ++ "\nAction Input: ".toList ++ " \"db_result.txt\" ".toList) :=
  ⟨by decide, by decide, by decide, by decide,
    run_agent_parse_action_pair "Thought: I should check the file".toList
      "ReadFile".toList " \"db_result.txt\" ".toList
      (by decide) (by decide) (by decide) (by decide)⟩

/-- C2: when the response matches neither the `Action`/`Action Input`
pattern nor the `Final Answer` pattern, the parser returns `Finish` whose
output (and log) is the entire raw response; being a total Lean function
into `Outcome`, the parse never raises and yields exactly one outcome. -/
theorem run_agent_parse_fallback (s : Str)
    (h1 : searchActionPair s = none) (h2 : searchFinalAnswer s = none) :
    run_agent_parse s = Outcome.finish s s := by
  unfold run_agent_parse
  rw [h1, h2]

/-- C2 (witness): the fallback theorem applied to a concrete malformed
response. -/
theorem run_agent_parse_fallback_witness :
    searchActionPair "I am not sure what to do.".toList = none ∧
    searchFinalAnswer "I am not sure what to do.".toList = none ∧
    run_agent_parse "I am not sure what to do.".toList
      = Outcome.finish "I am not sure what to do.".toList
          "I am not sure what to do.".toList :=
  ⟨by decide, by decide, run_agent_parse_fallback _ (by decide) (by decide)⟩

/-- C3: when the response has no `Action`/`Action Input` pair but contains
`Final Answer:` (first occurrence at index `i`), the parser returns `Finish`
whose output is exactly the text after the marker, trimmed of surrounding
whitespace, and whose log is the full response. -/
theorem run_agent_parse_final_answer (s : Str) (i : Nat)
    (h1 : searchActionPair s = none) (h2 : findFirst finalAnswerLit s = some i) :
    run_agent_parse s
      = Outcome.finish (pyStrip (s.drop (i + finalAnswerLit.length))) s := by
  unfold run_agent_parse searchFinalAnswer
  rw [h1, h2]
  show Outcome.finish (pyStrip ((s.drop (i + finalAnswerLit.length)).dropWhile pyIsSpace)) s = _
  rw [show pyStrip ((s.drop (i + finalAnswerLit.length)).dropWhile pyIsSpace)
        = pyStrip (s.drop (i + finalAnswerLit.length)) from
      pyStrip_dropWhile _]

/-- C3 (witness): the final-answer theorem applied to a concrete
response. -/
theorem run_agent_parse_final_answer_witness :
    searchActionPair "Thought: done\nFinal Answer:  42 ".toList = none ∧
    findFirst finalAnswerLit "Thought: done\nFinal Answer:  42 ".toList = some 14 ∧
    run_agent_parse "Thought: done\nFinal Answer:  42 ".toList
      = Outcome.finish
          (pyStrip (("Thought: done\nFinal Answer:  42 ".toList).drop
            (14 + finalAnswerLit.length)))
          "Thought: done\nFinal Answer:  42 ".toList :=
  ⟨by decide, by decide, run_agent_parse_final_answer _ 14 (by decide) (by decide)⟩

/-- C5: every defined step out of the `"tools"` node goes back to the
`"agent"` node (never directly to `END`), and a step reaches `END` only
from the `"agent"` node with an `AgentFinish` outcome. -/
theorem step_tools_to_agent_done_only_from_finish
    (toolExec : Act → Except Str Str) (g g' : GState)
    (h : stepG toolExec g = some g') :
    (g.node = Node.tools → g'.node = Node.agent) ∧
    (g'.node = Node.done →
      g.node = Node.agent ∧ ∃ o l, g'.agent_outcome = some (Outcome.finish o l)) := by
  cases hn : g.node with
  | agent =>
    refine ⟨?_, ?_⟩
    · intro hc
      cases hc
    intro hd
    cases hr : g.responses with
    | nil => rw [stepG, hn, hr] at h; cases h
    | cons r rs =>
      cases ho : run_agent_parse r with
      | action t i l =>
        rw [stepG, hn, hr] at h
        simp only [ho, route_agent_outcome, Option.some.injEq] at h
        rw [← h] at hd
        cases hd
      | finish o l =>
        rw [stepG, hn, hr] at h
        simp only [ho, route_agent_outcome, Option.some.injEq] at h
        rw [← h]
        exact ⟨rfl, o, l, rfl⟩
  | tools =>
    cases ho : g.agent_outcome with
    | none => rw [stepG, hn, ho] at h; cases h
    | some oc =>
      cases oc with
      | action t i l =>
        rw [stepG, hn, ho] at h
        simp only [Option.some.injEq] at h
        constructor
        · intro _
          rw [← h]
        · intro hd
          rw [← h] at hd
          cases hd
      | finish o l => rw [stepG, hn, ho] at h; cases h
  | done => rw [stepG, hn] at h; cases h

/-- C5 (witness): a concrete step out of the `"tools"` node. -/
theorem step_tools_to_agent_witness :
    (stepG (fun _ => .ok "obs".toList)
        ⟨[], [], some (Outcome.action "T".toList "x".toList "log".toList), Node.tools⟩
      = some ⟨[], [(⟨"T".toList, "x".toList, "log".toList⟩, "obs".toList)],
          some (Outcome.action "T".toList "x".toList "log".toList), Node.agent⟩) ∧
    ((⟨[], [], some (Outcome.action "T".toList "x".toList "log".toList),
        Node.tools⟩ : GState).node = Node.tools →
      (⟨[], [(⟨"T".toList, "x".toList, "log".toList⟩, "obs".toList)],
          some (Outcome.action "T".toList "x".toList "log".toList),
          Node.agent⟩ : GState).node = Node.agent) :=
  ⟨by decide,
    (step_tools_to_agent_done_only_from_finish (fun _ => .ok "obs".toList)
      ⟨[], [], some (Outcome.action "T".toList "x".toList "log".toList), Node.tools⟩
      ⟨[], [(⟨"T".toList, "x".toList, "log".toList⟩, "obs".toList)],
        some (Outcome.action "T".toList "x".toList "log".toList), Node.agent⟩
      (by decide)).1⟩

/-- C6: executing an `Action` whose tool name is not registered yields the
unknown-tool observation string (no exception), appends exactly that
`(action, observation)` pair to the transcript, and moves back to the
`"agent"` node. -/
theorem unknown_tool_observation_and_continue
    (sqlRun writeQ readF : Str → Except Str Str) (t i l : Str) (g : GState)
    (ht : t ∉ toolNames) (hn : g.node = Node.tools)
    (ho : g.agent_outcome = some (Outcome.action t i l)) :
    stepG (tool_executor sqlRun writeQ readF) g
      = some { g with
          intermediate_steps := g.intermediate_steps
            ++ [(⟨t, i, l⟩,
                t ++ " is not a valid tool, try one of [SQL_Query_Executor, WriteQueryResultToFile, ReadFile].".toList)]
          node := Node.agent } := by
  have h1 : t ≠ "SQL_Query_Executor".toList := by
    intro he; exact ht (by rw [he]; exact List.mem_cons_self _ _)
  have h2 : t ≠ "WriteQueryResultToFile".toList := by
    intro he
    exact ht (by rw [he]; exact List.mem_cons_of_mem _ (List.mem_cons_self _ _))
  have h3 : t ≠ "ReadFile".toList := by
    intro he
    exact ht (by
      rw [he]
      exact List.mem_cons_of_mem _ (List.mem_cons_of_mem _ (List.mem_cons_self _ _)))
  rw [stepG, hn, ho]
  simp only [execute_tools_obs, tool_executor, h1, h2, h3, if_false]

/-- C6 (witness): a concrete unregistered tool name. -/
theorem unknown_tool_observation_witness :
    ("Nope".toList ∉ toolNames) ∧
    stepG (tool_executor (fun _ => .ok []) (fun _ => .ok []) (fun _ => .ok []))
        ⟨[], [], some (Outcome.action "Nope".toList "x".toList "log".toList), Node.tools⟩
      = some ⟨[],
          [(⟨"Nope".toList, "x".toList, "log".toList⟩,
            "Nope".toList ++ " is not a valid tool, try one of [SQL_Query_Executor, WriteQueryResultToFile, ReadFile].".toList)],
          some (Outcome.action "Nope".toList "x".toList "log".toList), Node.agent⟩ :=
  ⟨by decide,
    unknown_tool_observation_and_continue (fun _ => .ok []) (fun _ => .ok [])
      (fun _ => .ok []) "Nope".toList "x".toList "log".toList
      ⟨[], [], some (Outcome.action "Nope".toList "x".toList "log".toList), Node.tools⟩
      (by decide) rfl rfl⟩

/-- C4: counting the `"tools"` node as holding one produced-but-unappended
entry, the transcript grows by exactly the number of `Action` outcomes the
agent node produced: one entry per `Action` iteration, appended exactly
once (each `"tools"` step appends exactly one pair), and none for a
`Finish` outcome.  At iteration boundaries (`"agent"` or `END`, where
`pendingEntry` is `0`) this is literally: transcript length equals the
number of `Action` outcomes produced so far. -/
theorem transcript_length_eq_action_count
    (toolExec : Act → Except Str Str) (n : Nat) (g : GState) :
    (driveN toolExec n g).1.intermediate_steps.length
        + pendingEntry (driveN toolExec n g).1
      = g.intermediate_steps.length + pendingEntry g
          + ((driveN toolExec n g).2.filter isActionOutcome).length := by
  induction n generalizing g with
  | zero => simp [driveN]
  | succ n ih =>
    cases hs : stepG toolExec g with
    | none => simp [driveN, hs]
    | some g' =>
      have hstep :
          g'.intermediate_steps.length + pendingEntry g'
            = g.intermediate_steps.length + pendingEntry g
                + (((match g.node, g'.agent_outcome with
                     | Node.agent, some o => [o]
                     | _, _ => []).filter isActionOutcome).length) := by
        cases hn : g.node with
        | agent =>
          cases hr : g.responses with
          | nil => rw [stepG, hn, hr] at hs; cases hs
          | cons r rs =>
            rw [stepG, hn, hr] at hs
            simp only [Option.some.injEq] at hs
            cases ho : run_agent_parse r with
            | action t i l =>
              rw [ho] at hs
              rw [← hs]
              simp [pendingEntry, hn, route_agent_outcome, isActionOutcome]
            | finish o l =>
              rw [ho] at hs
              rw [← hs]
              simp [pendingEntry, hn, route_agent_outcome, isActionOutcome]
        | tools =>
          cases ho : g.agent_outcome with
          | none => rw [stepG, hn, ho] at hs; cases hs
          | some oc =>
            cases oc with
            | action t i l =>
              rw [stepG, hn, ho] at hs
              simp only [Option.some.injEq] at hs
              rw [← hs]
              simp [pendingEntry, hn]
            | finish o l => rw [stepG, hn, ho] at hs; cases hs
        | done => rw [stepG, hn] at hs; cases hs
      have hd : driveN toolExec (n + 1) g
          = ((driveN toolExec n g').1,
             (match g.node, g'.agent_outcome with
              | Node.agent, some o => [o]
              | _, _ => []) ++ (driveN toolExec n g').2) := by
        rw [driveN, hs]
      rw [hd]
      simp only [List.filter_append, List.length_append]
      rw [ih g']
      omega

/-- A run from `END` stays at `END` (no step is possible there). -/
theorem driveN_done_fix (toolExec : Act → Except Str Str) (m : Nat) (g : GState)
    (h : g.node = Node.done) : (driveN toolExec m g).1 = g := by
  cases m with
  | zero => rfl
  | succ m =>
    have hs : stepG toolExec g = none := by rw [stepG, h]
    rw [driveN, hs]

/-- Running `a + b` node executions is running `a`, then `b` more. -/
theorem driveN_add (toolExec : Act → Except Str Str) (a : Nat) :
    ∀ (b : Nat) (g : GState),
      (driveN toolExec (a + b) g).1
        = (driveN toolExec b (driveN toolExec a g).1).1 := by
  induction a with
  | zero =>
    intro b g
    rw [Nat.zero_add]
    rfl
  | succ a ih =>
    intro b g
    cases hs : stepG toolExec g with
    | none =>
      have hstay : ∀ m, (driveN toolExec m g).1 = g := by
        intro m
        cases m with
        | zero => rfl
        | succ m => rw [driveN, hs]
      rw [Nat.succ_add, driveN, hs]
      simp only
      rw [hstay (a + 1), hstay b]
    | some g' =>
      rw [Nat.succ_add, driveN, hs]
      simp only
      rw [ih b g', driveN, hs]

/-- Two node executions starting from the agent node with a response that
parses to an `Action`: decide, then execute, landing back at the agent node
with the transcript one entry longer. -/
theorem driveN_two_action (toolExec : Act → Except Str Str) (r t i l : Str)
    (hr : run_agent_parse r = Outcome.action t i l) (n : Nat) (rs : List Str)
    (steps : List (Act × Str)) (out : Option Outcome) :
    (driveN toolExec (n + 2) ⟨r :: rs, steps, out, Node.agent⟩).1
      = (driveN toolExec n
          ⟨rs, steps ++ [(⟨t, i, l⟩, execute_tools_obs toolExec ⟨t, i, l⟩)],
            some (Outcome.action t i l), Node.agent⟩).1 := by
  have h1 : stepG toolExec ⟨r :: rs, steps, out, Node.agent⟩
      = some ⟨rs, steps, some (Outcome.action t i l), Node.tools⟩ := by
    rw [stepG]
    simp only [hr, route_agent_outcome]
  have h2 : stepG toolExec ⟨rs, steps, some (Outcome.action t i l), Node.tools⟩
      = some ⟨rs, steps ++ [(⟨t, i, l⟩, execute_tools_obs toolExec ⟨t, i, l⟩)],
          some (Outcome.action t i l), Node.agent⟩ := by
    rw [stepG]
  show (driveN toolExec (n + 1 + 1) _).1 = _
  rw [driveN, h1]
  simp only
  rw [driveN, h2]

/-- `k` scripted `Action` responses drive `k` full decide/execute
iterations: after `2 * k` node executions the run is back at the agent node
with `k` new transcript entries and the script consumed. -/
theorem driveN_replicate_action (toolExec : Act → Except Str Str) (r t i l : Str)
    (hr : run_agent_parse r = Outcome.action t i l) :
    ∀ (k : Nat) (steps : List (Act × Str)) (out : Option Outcome),
      (driveN toolExec (2 * k) ⟨List.replicate k r, steps, out, Node.agent⟩).1.node
          = Node.agent ∧
      (driveN toolExec (2 * k)
          ⟨List.replicate k r, steps, out, Node.agent⟩).1.intermediate_steps.length
        = steps.length + k := by
  intro k
  induction k with
  | zero =>
    intro steps out
    exact ⟨rfl, rfl⟩
  | succ k ih =>
    intro steps out
    have hmul : 2 * (k + 1) = 2 * k + 2 := by omega
    rw [hmul, List.replicate_succ,
      driveN_two_action toolExec r t i l hr (2 * k) (List.replicate k r) steps out]
    rcases ih (steps ++ [(⟨t, i, l⟩, execute_tools_obs toolExec ⟨t, i, l⟩)])
      (some (Outcome.action t i l)) with ⟨hn, hl⟩
    refine ⟨hn, ?_⟩
    rw [hl]
    simp only [List.length_append, List.length_singleton]
    omega

/-- C7: the loop driver has no maximum-iteration guard.  For every bound
`N` there is a script of LLM responses, each parsing to an `Action`, under
which the run performs `N + 1` full decide/execute iterations — the
transcript reaches length `N + 1 > N` — while never touching the terminal
state: after each of the first `2 * (N + 1)` node executions the run is not
at `END`, and after all of them it sits at the agent node again. -/
theorem loop_has_no_iteration_cap (N : Nat) (toolExec : Act → Except Str Str) :
    ∃ rs : List Str,
      (driveN toolExec (2 * (N + 1)) (initState rs)).1.node = Node.agent ∧
      (driveN toolExec (2 * (N + 1)) (initState rs)).1.intermediate_steps.length
        = N + 1 ∧
      ∀ k, k ≤ 2 * (N + 1) →
        (driveN toolExec k (initState rs)).1.node ≠ Node.done := by
  have hr : run_agent_parse "Action: SQL_Query_Executor\nAction Input: SELECT 1".toList
      = Outcome.action "SQL_Query_Executor".toList "SELECT 1".toList
          "Action: SQL_Query_Executor\nAction Input: SELECT 1".toList := by
    decide
  refine ⟨List.replicate (N + 1)
    "Action: SQL_Query_Executor\nAction Input: SELECT 1".toList, ?_, ?_, ?_⟩
  · simpa [initState] using
      (driveN_replicate_action toolExec _ _ _ _ hr (N + 1) [] none).1
  · simpa [initState] using
      (driveN_replicate_action toolExec _ _ _ _ hr (N + 1) [] none).2
  · intro k hk hdone
    simp only [initState] at hdone
    have hsplit := driveN_add toolExec k (2 * (N + 1) - k)
      ⟨List.replicate (N + 1)
        "Action: SQL_Query_Executor\nAction Input: SELECT 1".toList,
        [], none, Node.agent⟩
    rw [Nat.add_sub_cancel' hk] at hsplit
    have hfix := driveN_done_fix toolExec (2 * (N + 1) - k)
      (driveN toolExec k
        (⟨List.replicate (N + 1)
          "Action: SQL_Query_Executor\nAction Input: SELECT 1".toList,
          [], none, Node.agent⟩ : GState)).1 hdone
    have hagent := (driveN_replicate_action toolExec _ _ _ _ hr (N + 1) [] none).1
    rw [hsplit, hfix, hdone] at hagent
    cases hagent

/-- C8 (counterexample): the claim promises, for every HTTP-backed tool,
that 2xx is success, that a non-2xx observation contains the response body,
and that network failures never escape the tool.  The weather tool's
non-200 branch returns a fixed message without the body (here status 500,
body `oops`), a 204 response — 2xx — is also routed to that failure branch,
and the GitHub search tool propagates a network failure as a raised
exception. -/
theorem http_error_handling_counterexample :
    containsSub "oops".toList
        (get_weather (fun _ => .ok ⟨500, "oops".toList⟩) (fun _ => .error [])
          "Lagos".toList) = false ∧
    get_weather (fun _ => .ok ⟨204, "partial".toList⟩) (fun _ => .error [])
        "Lagos".toList = "Could not get weather for Lagos".toList ∧
    search_repositories (fun _ => .error "connection refused".toList)
        (fun _ => .ok []) "lean".toList = .error "connection refused".toList := by
  refine ⟨by decide, by decide, rfl⟩

/-- C8 (amended): what the two HTTP tools actually do.  The weather tool
converts a network failure into a `Weather error: ...` observation and
answers any non-200 response (2xx or not) with a fixed message naming the
city but not the body; the GitHub search tool converts a non-200 response
into an `Error: ...` observation containing the response body but lets a
network failure propagate as a raised exception. -/
theorem http_error_handling_amended
    (http : Str → Except Str HttpResponse)
    (parseWeather : Str → Except Str (Str × Str))
    (parseItems : Str → Except Str (List (Str × Str)))
    (city q e : Str) (resp : HttpResponse) :
    (http (weather_url city) = .error e →
      get_weather http parseWeather city = "Weather error: ".toList ++ e) ∧
    (http (weather_url city) = .ok resp → resp.status ≠ 200 →
      get_weather http parseWeather city
        = "Could not get weather for ".toList ++ city) ∧
    (http (search_url q) = .ok resp → resp.status ≠ 200 →
      search_repositories http parseItems q
        = .ok ("Error: ".toList ++ resp.body)) ∧
    (http (search_url q) = .error e →
      search_repositories http parseItems q = .error e) := by
  refine ⟨?_, ?_, ?_, ?_⟩
  · intro h
    rw [get_weather, h]
  · intro h hs
    rw [get_weather, h]
    simp only [if_neg hs]
  · intro h hs
    rw [search_repositories, h]
    simp only [if_neg hs]
  · intro h
    rw [search_repositories, h]

/-- C8 (witness): the amended theorem applied to a concrete 500 response
and a concrete network failure. -/
theorem http_error_handling_amended_witness :
    get_weather (fun _ => .ok ⟨500, "oops".toList⟩) (fun _ => .error [])
        "Lagos".toList = "Could not get weather for ".toList ++ "Lagos".toList ∧
    search_repositories (fun _ => .ok ⟨500, "oops".toList⟩) (fun _ => .ok [])
        "lean".toList = .ok ("Error: ".toList ++ ("oops".toList : Str)) :=
  ⟨(http_error_handling_amended (fun _ => .ok ⟨500, "oops".toList⟩)
      (fun _ => .error []) (fun _ => .ok []) "Lagos".toList "lean".toList []
      ⟨500, "oops".toList⟩).2.1 rfl (by decide),
    (http_error_handling_amended (fun _ => .ok ⟨500, "oops".toList⟩)
      (fun _ => .error []) (fun _ => .ok []) "Lagos".toList "lean".toList []
      ⟨500, "oops".toList⟩).2.2.1 rfl (by decide)⟩

/-- C9: invoked with `"SQL: SELECT COUNT(*) FROM users;"` against a
database whose `users` table holds 4 rows (langchain's `SQLDatabase.run`
then returns the string `[(4,)]`), the write tool registers the output
directory (creating it if absent), overwrites `db_result.txt` there with
content containing the literal `4`, and returns an observation naming the
file path. -/
theorem write_query_result_four_users
    (dbRun : Str → Except Str PyDBResult) (dbDir : Str) (fs : FS)
    (hdb : dbRun "SELECT COUNT(*) FROM users;".toList
      = .ok (.pystr "[(4,)]".toList)) :
    dbDir ∈ (WriteQueryResultToFile dbRun dbDir fs
        "SQL: SELECT COUNT(*) FROM users;".toList).1.dirs ∧
    fsRead (WriteQueryResultToFile dbRun dbDir fs
        "SQL: SELECT COUNT(*) FROM users;".toList).1
        (dbDir ++ "/db_result.txt".toList)
      = some ("The number of users is: [(4,)]".toList) ∧
    containsSub "4".toList "The number of users is: [(4,)]".toList = true ∧
    (WriteQueryResultToFile dbRun dbDir fs
        "SQL: SELECT COUNT(*) FROM users;".toList).2
      = "Query result successfully written to ".toList
          ++ (dbDir ++ "/db_result.txt".toList)
          ++ ". Result: ".toList ++ "[(4,)]".toList := by
  have hsearch : searchSQLSelect "SQL: SELECT COUNT(*) FROM users;".toList
      = some "SELECT COUNT(*) FROM users;".toList := by decide
  have hclean : clean_and_run_sql dbRun
      (pyStrip "SELECT COUNT(*) FROM users;".toList) = "[(4,)]".toList := by
    rw [show pyStrip "SELECT COUNT(*) FROM users;".toList
          = "SELECT COUNT(*) FROM users;".toList from by decide]
    rw [clean_and_run_sql]
    rw [show pyStrip (removeFences "SELECT COUNT(*) FROM users;".toList)
          = "SELECT COUNT(*) FROM users;".toList from by decide]
    rw [if_pos (by decide)]
    rw [hdb]
    rfl
  have hw : WriteQueryResultToFile dbRun dbDir fs
      "SQL: SELECT COUNT(*) FROM users;".toList
      = (fsWrite (os_makedirs fs dbDir) (dbDir ++ "/db_result.txt".toList)
          ("The number of users is: ".toList ++ "[(4,)]".toList),
        "Query result successfully written to ".toList
          ++ (dbDir ++ "/db_result.txt".toList)
          ++ ". Result: ".toList ++ "[(4,)]".toList) := by
    rw [WriteQueryResultToFile, hsearch]
    simp only [hclean]
  rw [hw]
  refine ⟨?_, ?_, by decide, rfl⟩
  · show dbDir ∈ (os_makedirs fs dbDir).dirs
    rw [os_makedirs]
    by_cases h : dbDir ∈ fs.dirs
    · rw [if_pos h]; exact h
    · rw [if_neg h]; exact List.mem_cons_self _ _
  · show fsRead _ _ = _
    rw [fsRead, fsWrite]
    simp

/-- C9 (witness): the write-tool theorem at a concrete database stub and a
file system that already holds an older `db_result.txt` (exercising the
overwrite). -/
theorem write_query_result_four_users_witness :
    ((fun q => if q = "SELECT COUNT(*) FROM users;".toList
        then Except.ok (PyDBResult.pystr "[(4,)]".toList)
        else Except.error ([] : Str)) "SELECT COUNT(*) FROM users;".toList
      = Except.ok (PyDBResult.pystr "[(4,)]".toList)) ∧
    fsRead (WriteQueryResultToFile
        (fun q => if q = "SELECT COUNT(*) FROM users;".toList
          then Except.ok (PyDBResult.pystr "[(4,)]".toList)
          else Except.error ([] : Str))
        "/data".toList
        ⟨["/data".toList], [("/data/db_result.txt".toList, "old".toList)]⟩
        "SQL: SELECT COUNT(*) FROM users;".toList).1
        ("/data".toList ++ "/db_result.txt".toList)
      = some ("The number of users is: [(4,)]".toList) :=
  ⟨rfl,
    (write_query_result_four_users
      (fun q => if q = "SELECT COUNT(*) FROM users;".toList
        then Except.ok (PyDBResult.pystr "[(4,)]".toList)
        else Except.error ([] : Str))
      "/data".toList
      ⟨["/data".toList], [("/data/db_result.txt".toList, "old".toList)]⟩
      rfl).2.1⟩

/-- C10: in exercise_2.py, whenever the query runs and the file write
succeeds, `WriteQueryResultToFile` hits `sys.exit()` inside the `with`
block — a `SystemExit` its `except Exception` does not catch — so the
success path terminates the process after writing and never returns an
observation string; only the failure path returns one. -/
theorem exercise2_write_tool_exits_on_success
    (dbRun : Str → Except Str Str) (fs : FS) (q : Str) :
    (∀ r, clean_and_run_sql_ex2 dbRun q = .ok r →
      WriteQueryResultToFile_ex2 dbRun fs q
        = .exited (fsWrite (os_makedirs fs "filepath".toList)
            ("filepath".toList ++ "/query_result.txt".toList)
            ("This is the result of the query: ".toList ++ r))) ∧
    (∀ e, clean_and_run_sql_ex2 dbRun q = .error e →
      WriteQueryResultToFile_ex2 dbRun fs q
        = .returned fs ("Failed to write query result: ".toList ++ e)) := by
  constructor
  · intro r hr
    rw [WriteQueryResultToFile_ex2, hr]
  · intro e he
    rw [WriteQueryResultToFile_ex2, he]

/-- C10 (witness): a concrete success (process exits after the write) and a
concrete failure (observation string returned). -/
theorem exercise2_write_tool_exits_witness :
    WriteQueryResultToFile_ex2 (fun _ => .ok "[(4,)]".toList) ⟨[], []⟩
        "SELECT COUNT(*) FROM users;".toList
      = ToolRun2.exited (fsWrite (os_makedirs ⟨[], []⟩ "filepath".toList)
          ("filepath".toList ++ "/query_result.txt".toList)
          ("This is the result of the query: ".toList ++ "[(4,)]".toList)) ∧
    WriteQueryResultToFile_ex2 (fun _ => .error "no such table".toList) ⟨[], []⟩
        "SELECT 1".toList
      = ToolRun2.returned ⟨[], []⟩
          ("Failed to write query result: ".toList ++ "no such table".toList) :=
  ⟨(exercise2_write_tool_exits_on_success (fun _ => .ok "[(4,)]".toList)
      ⟨[], []⟩ "SELECT COUNT(*) FROM users;".toList).1 "[(4,)]".toList rfl,
    (exercise2_write_tool_exits_on_success (fun _ => .error "no such table".toList)
      ⟨[], []⟩ "SELECT 1".toList).2 "no such table".toList rfl⟩
